import Mathlib

/-!
Verification of the KAKAPO mutual-interest matching and exchange-realization
core against its specification.

The data model follows the tables in src/.ai/db-plan.md (interests, chats,
exchange_history, offers). The database trigger functions
(check_self_interest, create_chat_on_mutual_match,
create_exchange_history_on_realized) are translated directly from the SQL in
src/.ai/db-plan.md. The service-layer operations (expressInterest,
cancelInterest, realize, unrealize) are not present in the repository sources
(only their HTTP routes and frontend callers are), so they are modelled from
the specification, as marked in their doc comments. User and offer
identifiers are natural numbers; the canonical pair order (user_a < user_b)
uses the order on Nat, standing in for the UUID order used by the database.
-/

namespace Kakapo

/-- Status of an interest row: CHECK status IN (PROPOSED, ACCEPTED, REALIZED). -/
inductive IStatus
  | PROPOSED
  | ACCEPTED
  | REALIZED
deriving DecidableEq, Repr

/-- Status of a chat row: CHECK status IN (ACTIVE, ARCHIVED). -/
inductive CStatus
  | ACTIVE
  | ARCHIVED
deriving DecidableEq, Repr

/-- Row of the offers table (the fields the core reads: id, owner_id, title). -/
structure Offer where
  id : Nat
  ownerId : Nat
  title : String
deriving DecidableEq, Repr

/-- Row of the interests table. -/
structure Interest where
  id : Nat
  offerId : Nat
  userId : Nat
  status : IStatus
  realizedAt : Option Nat
deriving DecidableEq, Repr

/-- Row of the chats table; the pair is stored canonically (userA < userB). -/
structure Chat where
  id : Nat
  userA : Nat
  userB : Nat
  status : CStatus
deriving DecidableEq, Repr

/-- Row of the exchange_history table (offer ids nullable, titles denormalized). -/
structure ExchangeRecord where
  id : Nat
  userA : Nat
  userB : Nat
  offerAId : Option Nat
  offerBId : Option Nat
  offerATitle : String
  offerBTitle : String
  chatId : Nat
  realizedAt : Nat
deriving DecidableEq, Repr

/-- The persistent store: the four tables the core touches plus an id source
and a clock. Offers are read but never written by the core. -/
structure DB where
  offers : List Offer
  interests : List Interest
  chats : List Chat
  history : List ExchangeRecord
  nextId : Nat
  now : Nat
deriving DecidableEq, Repr

/-- Lookup of an offer row by id (SELECT ... FROM offers WHERE id = oid). -/
def findOffer (offers : List Offer) (oid : Nat) : Option Offer :=
  offers.find? (fun o => o.id == oid)

/-- Owner of an offer (SELECT owner_id FROM offers WHERE id = oid). -/
def ownerOf (offers : List Offer) (oid : Nat) : Option Nat :=
  (findOffer offers oid).map Offer.ownerId

/-- Canonical ordering of a user pair: smaller id first, as in the SQL
branches IF NEW.user_id < v_other_user_id THEN ... ELSE ... END IF. -/
def canonPair (u v : Nat) : Nat × Nat :=
  if u < v then (u, v) else (v, u)

/-- Two interest rows are mirrored: each user holds the interest in an offer
owned by the other (same user-pair, reciprocal offer ownership). -/
def Mirror (offers : List Offer) (i j : Interest) : Prop :=
  ownerOf offers i.offerId = some j.userId ∧ ownerOf offers j.offerId = some i.userId

instance (offers : List Offer) (i j : Interest) : Decidable (Mirror offers i j) := by
  unfold Mirror; infer_instance

/-- Check whether the mirrored interest of i (an interest of the owner of
i's offer, in an offer owned by i's user) has status REALIZED. -/
def mirrorRealized (db : DB) (i : Interest) : Bool :=
  match ownerOf db.offers i.offerId with
  | none => false
  | some b =>
    db.interests.any
      (fun j => j.userId == b && ownerOf db.offers j.offerId == some i.userId
        && j.status == IStatus.REALIZED)

/-- Translation of the trigger function check_self_interest from
src/.ai/db-plan.md: EXISTS (SELECT 1 FROM offers WHERE id = NEW.offer_id
AND owner_id = NEW.user_id) means the insert is rejected. -/
def check_self_interest (offers : List Offer) (offerId userId : Nat) : Bool :=
  offers.any (fun o => o.id == offerId && o.ownerId == userId)

/-- The INSERT INTO chats ... ON CONFLICT (user_a, user_b) DO UPDATE SET
status = ACTIVE primitive from create_chat_on_mutual_match: insert an
ACTIVE chat for the (already canonical) pair, or force an existing chat for
the pair back to ACTIVE. -/
def upsertChatActive (db : DB) (a b : Nat) : DB :=
  if db.chats.any (fun c => c.userA == a && c.userB == b) then
    let f : Chat → Chat := fun c =>
      if c.userA == a && c.userB == b then { c with status := CStatus.ACTIVE } else c
    { db with chats := db.chats.map f }
  else
    { db with chats := db.chats ++ [⟨db.nextId, a, b, CStatus.ACTIVE⟩],
              nextId := db.nextId + 1 }

/-- Translation of the trigger function create_chat_on_mutual_match from
src/.ai/db-plan.md, fired AFTER INSERT OR UPDATE ON interests with the new
row. Only acts when the new row has status ACCEPTED; looks up the owner of
the new row's offer and searches for an ACCEPTED interest of that owner in
an offer owned by the new row's user; on success upserts the ACTIVE chat
for the canonical user pair. -/
def create_chat_on_mutual_match (db : DB) (new : Interest) : DB :=
  if new.status ≠ IStatus.ACCEPTED then db
  else
    match ownerOf db.offers new.offerId with
    | none => db
    | some vOtherUserId =>
      match db.interests.find?
          (fun i => i.userId == vOtherUserId
            && ownerOf db.offers i.offerId == some new.userId
            && i.status == IStatus.ACCEPTED) with
      | none => db
      | some _ =>
        let p := canonPair new.userId vOtherUserId
        upsertChatActive db p.1 p.2

/-- Translation of the trigger function create_exchange_history_on_realized
from src/.ai/db-plan.md, fired AFTER UPDATE ON interests with the old status
and the new row. Guard: only when the row moved into REALIZED. It then joins
offers to find a REALIZED interest of the counterpart in an offer owned by
the new row's user, looks up the chat of the canonical pair, and inserts a
history record. The SQL ends with ON CONFLICT DO NOTHING, but exchange_history
has no uniqueness constraint other than its generated primary key, so the
insert is never suppressed; the translation therefore appends
unconditionally. The none branches mirror SELECT INTO finding no row. -/
def create_exchange_history_on_realized (db : DB) (oldStatus : IStatus) (new : Interest) : DB :=
  if new.status ≠ IStatus.REALIZED ∨ oldStatus = IStatus.REALIZED then db
  else
    match findOffer db.offers new.offerId with
    | none => db
    | some otherOffer =>
      match db.interests.find?
          (fun i => i.userId == otherOffer.ownerId
            && ownerOf db.offers i.offerId == some new.userId
            && i.status == IStatus.REALIZED) with
      | none => db
      | some oi =>
        match findOffer db.offers oi.offerId with
        | none => db
        | some myOffer =>
          let p := canonPair new.userId otherOffer.ownerId
          match db.chats.find? (fun c => c.userA == p.1 && c.userB == p.2) with
          | none => db
          | some chat =>
            let r : ExchangeRecord :=
              { id := db.nextId
                userA := p.1
                userB := p.2
                offerAId := if p.1 == new.userId then some oi.offerId else some new.offerId
                offerBId := if p.1 == new.userId then some new.offerId else some oi.offerId
                offerATitle := if p.1 == new.userId then myOffer.title else otherOffer.title
                offerBTitle := if p.1 == new.userId then otherOffer.title else myOffer.title
                chatId := chat.id
                realizedAt := db.now }
            { db with history := db.history ++ [r], nextId := db.nextId + 1 }

/-- Error taxonomy of the core (spec section 7). -/
inductive CoreError
  | SelfInterest
  | DuplicateInterest
  | NotFound
  | Forbidden
  | BadStatus
  | AlreadyCompleted
  | AlreadyRealized
deriving DecidableEq, Repr

/-- Outcome reported by realize. -/
inductive RealizeOutcome
  | completed
  | awaiting
deriving DecidableEq, Repr

/-- Modelled from the spec: the Match Detector (spec section 4.2), which is
implemented outside the repository sources. Invoked after an interest is
created in PROPOSED. Let A be the interest's user and B the owner of its
offer; if B holds any interest (PROPOSED or later) in an offer owned by A,
promote the new interest and every such reciprocal interest to ACCEPTED
(promotion of a record that is not PROPOSED is a no-op), then the
create_chat_on_mutual_match trigger from the source fires on the final
promoting update of the new row. -/
def matchEvaluate (db : DB) (new : Interest) : DB :=
  match ownerOf db.offers new.offerId with
  | none => db
  | some b =>
    let recips := db.interests.filter
      (fun i => i.userId == b && ownerOf db.offers i.offerId == some new.userId)
    if recips.isEmpty then db
    else
      let promoteSet := new.id :: recips.map Interest.id
      let f : Interest → Interest := fun i =>
        if promoteSet.contains i.id && i.status == IStatus.PROPOSED
          then { i with status := IStatus.ACCEPTED } else i
      let db2 := { db with interests := db.interests.map f }
      create_chat_on_mutual_match db2 { new with status := IStatus.ACCEPTED }

/-- The fresh PROPOSED interest row created by expressInterest. -/
def newInterest (db : DB) (offerId userId : Nat) : Interest :=
  ⟨db.nextId, offerId, userId, IStatus.PROPOSED, none⟩

/-- Insertion of a fresh PROPOSED interest row. -/
def insertProposed (db : DB) (offerId userId : Nat) : DB :=
  { db with interests := db.interests ++ [newInterest db offerId userId], nextId := db.nextId + 1 }

/-- Modelled from the spec: expressInterest (spec section 4.1); the service
implementing it is not in the repository sources. Fails with NotFound when
the offer does not exist (the foreign key on interests.offer_id), with
SelfInterest when the check_self_interest trigger fires, with
DuplicateInterest when a live record exists for the (offer, user) pair
(UNIQUE(offer_id, user_id)); otherwise inserts a PROPOSED record (the
AFTER INSERT chat trigger fires, a no-op on a PROPOSED row) and runs Match
Detector evaluation. Returns the new interest id. -/
def expressInterest (db : DB) (offerId userId : Nat) : Except CoreError (DB × Nat) :=
  match findOffer db.offers offerId with
  | none => Except.error CoreError.NotFound
  | some _ =>
    if check_self_interest db.offers offerId userId then Except.error CoreError.SelfInterest
    else if db.interests.any (fun i => i.offerId == offerId && i.userId == userId) then
      Except.error CoreError.DuplicateInterest
    else
      let db1 := insertProposed db offerId userId
      let db2 := create_chat_on_mutual_match db1 (newInterest db offerId userId)
      Except.ok (matchEvaluate db2 (newInterest db offerId userId), db.nextId)

/-- Modelled from the spec: cancelInterest (spec section 4.1); the service
implementing it is not in the repository sources. Fails with NotFound,
Forbidden (byUserId is not the interest's user), or AlreadyRealized
(cancellation is only for PROPOSED/ACCEPTED); otherwise deletes the record. -/
def cancelInterest (db : DB) (interestId byUserId : Nat) : Except CoreError DB :=
  match db.interests.find? (fun i => i.id == interestId) with
  | none => Except.error CoreError.NotFound
  | some i =>
    if i.userId ≠ byUserId then Except.error CoreError.Forbidden
    else if i.status = IStatus.REALIZED then Except.error CoreError.AlreadyRealized
    else Except.ok { db with interests := db.interests.filter (fun j => ¬(j.id == interestId)) }

/-- Row update giving an interest status REALIZED with realized-at set. -/
def realizedRow (i : Interest) (t : Nat) : Interest :=
  { i with status := IStatus.REALIZED, realizedAt := some t }

/-- Row update reverting an interest to ACCEPTED with realized-at cleared. -/
def clearedRow (i : Interest) : Interest :=
  { i with status := IStatus.ACCEPTED, realizedAt := none }

/-- Replace the interest row with the given id. -/
def setRow (db : DB) (iid : Nat) (r : Interest) : DB :=
  { db with interests := db.interests.map fun j => if j.id == iid then r else j }

/-- Modelled from the spec: realize (spec section 4.4); the service
implementing it is not in the repository sources (the PATCH route maps its
error codes). Fails with Forbidden if byUserId is not the interest's user,
with BadStatus unless the current status is ACCEPTED; otherwise sets status
REALIZED and realized-at, the AFTER UPDATE triggers from the source fire
(the chat trigger is a no-op on a REALIZED row; the history trigger may
insert a record), and the outcome is completed when the mirrored interest
is also REALIZED, else awaiting. -/
def realize (db : DB) (interestId byUserId : Nat) : Except CoreError (DB × RealizeOutcome) :=
  match db.interests.find? (fun i => i.id == interestId) with
  | none => Except.error CoreError.NotFound
  | some i =>
    if i.userId ≠ byUserId then Except.error CoreError.Forbidden
    else if i.status ≠ IStatus.ACCEPTED then Except.error CoreError.BadStatus
    else
      let newRow := realizedRow i db.now
      let db1 := setRow db interestId newRow
      let db2 := create_chat_on_mutual_match db1 newRow
      let db3 := create_exchange_history_on_realized db2 i.status newRow
      Except.ok (db3, if mirrorRealized db3 newRow then RealizeOutcome.completed
                      else RealizeOutcome.awaiting)

/-- Modelled from the spec: unrealize (spec section 4.4); neither the service
nor its route is in the repository sources. Fails with Forbidden, with
BadStatus unless the current status is REALIZED, and with AlreadyCompleted
when the mirrored interest has also reached REALIZED; otherwise reverts
status to ACCEPTED and clears realized-at. The AFTER UPDATE triggers from
the source fire on the reverting update (the history trigger is a no-op on
a row that is not REALIZED). -/
def unrealize (db : DB) (interestId byUserId : Nat) : Except CoreError DB :=
  match db.interests.find? (fun i => i.id == interestId) with
  | none => Except.error CoreError.NotFound
  | some i =>
    if i.userId ≠ byUserId then Except.error CoreError.Forbidden
    else if i.status ≠ IStatus.REALIZED then Except.error CoreError.BadStatus
    else if mirrorRealized db i then Except.error CoreError.AlreadyCompleted
    else
      let newRow := clearedRow i
      let db1 := setRow db interestId newRow
      let db2 := create_chat_on_mutual_match db1 newRow
      Except.ok (create_exchange_history_on_realized db2 i.status newRow)

/-- Participants may update a chat's status (RLS policy
chats_update_participant in src/.ai/db-plan.md); used to archive or
reactivate a chat. Only the status column changes. -/
def setChatStatus (db : DB) (chatId byUserId : Nat) (s : CStatus) : DB :=
  let f : Chat → Chat := fun c =>
    if c.id == chatId && (c.userA == byUserId || c.userB == byUserId)
      then { c with status := s } else c
  { db with chats := db.chats.map f }

/-- One externally triggered operation of the core. -/
inductive Op
  | express (offerId userId : Nat)
  | cancel (interestId byUserId : Nat)
  | realizeOp (interestId byUserId : Nat)
  | unrealizeOp (interestId byUserId : Nat)
  | setChat (chatId byUserId : Nat) (s : CStatus)
deriving DecidableEq, Repr

/-- Apply one operation; a failed operation leaves the store unchanged
(validation failures are detected before any mutation, spec section 7). -/
def applyOp (db : DB) : Op → DB
  | Op.express o u =>
    match expressInterest db o u with
    | Except.ok (d, _) => d
    | Except.error _ => db
  | Op.cancel i u =>
    match cancelInterest db i u with
    | Except.ok d => d
    | Except.error _ => db
  | Op.realizeOp i u =>
    match realize db i u with
    | Except.ok (d, _) => d
    | Except.error _ => db
  | Op.unrealizeOp i u =>
    match unrealize db i u with
    | Except.ok d => d
    | Except.error _ => db
  | Op.setChat c u s => setChatStatus db c u s

/-- Run a sequence of operations. -/
def runOps (db : DB) (ops : List Op) : DB :=
  ops.foldl applyOp db

/-- Initial store: a fixed offers table, no interests, chats or history. -/
def initDB (offers : List Offer) : DB :=
  ⟨offers, [], [], [], 0, 0⟩

/-- States reachable by the core's operations from an initial store. -/
def Reachable (db : DB) : Prop :=
  ∃ offers ops, db = runOps (initDB offers) ops

/-! Basic lemmas about the canonical pair and list lookups. -/

theorem canonPair_comm (u v : Nat) : canonPair v u = canonPair u v := by
  unfold canonPair
  rcases Nat.lt_trichotomy u v with h | h | h
  · rw [if_pos h, if_neg (Nat.lt_asymm h)]
  · subst h; rfl
  · rw [if_neg (Nat.lt_asymm h), if_pos h]

theorem canonPair_lt {u v : Nat} (h : v ≠ u) :
    (canonPair u v).1 < (canonPair u v).2 := by
  unfold canonPair
  split
  · simpa using (by assumption : u < v)
  · next hnot => simpa using Nat.lt_of_le_of_ne (Nat.not_lt.mp hnot) h

theorem canonPair_cases (u v : Nat) : canonPair u v = (u, v) ∨ canonPair u v = (v, u) := by
  unfold canonPair
  split
  · exact Or.inl rfl
  · exact Or.inr rfl

theorem interest_eq_of_id {l : List Interest} (hnd : l.Pairwise (fun a b => a.id ≠ b.id))
    {i j : Interest} (hi : i ∈ l) (hj : j ∈ l) (hij : i.id = j.id) : i = j := by
  by_contra hne
  exact hnd.forall (fun _ _ h => Ne.symm h) hi hj hne hij

theorem find?_id_of_mem {l : List Interest} (hnd : l.Pairwise (fun a b => a.id ≠ b.id))
    {i : Interest} (hi : i ∈ l) : l.find? (fun j => j.id == i.id) = some i := by
  induction l with
  | nil => cases hi
  | cons a t ih =>
    rcases List.pairwise_cons.mp hnd with ⟨ha, ht⟩
    cases hi with
    | head => simp [List.find?_cons]
    | tail _ hi =>
      have hne : (a.id == i.id) = false := beq_eq_false_iff_ne.mpr (ha i hi)
      simp [List.find?_cons, hne, ih ht hi]

/-! Structural facts: which tables each primitive touches. -/

theorem upsert_offers (db : DB) (a b : Nat) : (upsertChatActive db a b).offers = db.offers := by
  unfold upsertChatActive; split <;> rfl

theorem upsert_interests (db : DB) (a b : Nat) :
    (upsertChatActive db a b).interests = db.interests := by
  unfold upsertChatActive; split <;> rfl

theorem upsert_history (db : DB) (a b : Nat) :
    (upsertChatActive db a b).history = db.history := by
  unfold upsertChatActive; split <;> rfl

theorem upsert_nextId_le (db : DB) (a b : Nat) :
    db.nextId ≤ (upsertChatActive db a b).nextId := by
  unfold upsertChatActive; split
  · exact Nat.le_refl _
  · exact Nat.le_succ _

theorem chatTrigger_offers (db : DB) (new : Interest) :
    (create_chat_on_mutual_match db new).offers = db.offers := by
  unfold create_chat_on_mutual_match
  split
  · rfl
  · split
    · rfl
    · split
      · rfl
      · exact upsert_offers ..

theorem chatTrigger_interests (db : DB) (new : Interest) :
    (create_chat_on_mutual_match db new).interests = db.interests := by
  unfold create_chat_on_mutual_match
  split
  · rfl
  · split
    · rfl
    · split
      · rfl
      · exact upsert_interests ..

theorem chatTrigger_history (db : DB) (new : Interest) :
    (create_chat_on_mutual_match db new).history = db.history := by
  unfold create_chat_on_mutual_match
  split
  · rfl
  · split
    · rfl
    · split
      · rfl
      · exact upsert_history ..

theorem chatTrigger_nextId_le (db : DB) (new : Interest) :
    db.nextId ≤ (create_chat_on_mutual_match db new).nextId := by
  unfold create_chat_on_mutual_match
  split
  · exact Nat.le_refl _
  · split
    · exact Nat.le_refl _
    · split
      · exact Nat.le_refl _
      · exact upsert_nextId_le ..

theorem histTrigger_offers (db : DB) (old : IStatus) (new : Interest) :
    (create_exchange_history_on_realized db old new).offers = db.offers := by
  simp only [create_exchange_history_on_realized]
  repeat' split
  all_goals rfl

theorem histTrigger_interests (db : DB) (old : IStatus) (new : Interest) :
    (create_exchange_history_on_realized db old new).interests = db.interests := by
  simp only [create_exchange_history_on_realized]
  repeat' split
  all_goals rfl

theorem histTrigger_chats (db : DB) (old : IStatus) (new : Interest) :
    (create_exchange_history_on_realized db old new).chats = db.chats := by
  simp only [create_exchange_history_on_realized]
  repeat' split
  all_goals rfl

/-! Well-formedness of a store: the structural invariants maintained by the
operations of the core. -/

/-- One side of an exchange record is aligned: the stored offer id refers to
an offer owned by the stored user, and the stored title is that offer's. -/
def SideAligned (offers : List Offer) (u : Nat) (oid? : Option Nat) (t : String) : Prop :=
  ∃ a o, oid? = some a ∧ findOffer offers a = some o ∧ o.ownerId = u ∧ o.title = t

/-- An exchange record stores the canonical user pair and both sides aligned. -/
def RecordAligned (offers : List Offer) (r : ExchangeRecord) : Prop :=
  r.userA < r.userB ∧ SideAligned offers r.userA r.offerAId r.offerATitle
    ∧ SideAligned offers r.userB r.offerBId r.offerBTitle

structure WF (db : DB) : Prop where
  intOffer : ∀ i ∈ db.interests, (findOffer db.offers i.offerId).isSome = true
  intSelfFalse : ∀ i ∈ db.interests, check_self_interest db.offers i.offerId i.userId = false
  intIdLt : ∀ i ∈ db.interests, i.id < db.nextId
  intIdNodup : db.interests.Pairwise (fun a b => a.id ≠ b.id)
  intPairNodup : db.interests.Pairwise (fun a b => a.offerId ≠ b.offerId ∨ a.userId ≠ b.userId)
  chatCanon : ∀ c ∈ db.chats, c.userA < c.userB
  chatPairNodup : db.chats.Pairwise (fun a b => a.userA ≠ b.userA ∨ a.userB ≠ b.userB)
  propNoMirror : ∀ i ∈ db.interests, ∀ j ∈ db.interests,
    Mirror db.offers i j → i.status ≠ IStatus.PROPOSED
  histAligned : ∀ r ∈ db.history, RecordAligned db.offers r

theorem ownerOf_ne_of_selfFalse {offers : List Offer} {oid uid : Nat}
    (h : check_self_interest offers oid uid = false) : ownerOf offers oid ≠ some uid := by
  intro hc
  unfold ownerOf at hc
  cases hf : findOffer offers oid with
  | none => rw [hf] at hc; cases hc
  | some o =>
    rw [hf] at hc
    have ho : o.ownerId = uid := by simpa using hc
    have hf' : offers.find? (fun x => x.id == oid) = some o := hf
    have hmem := List.mem_of_find?_eq_some hf'
    have hid : (o.id == oid) = true := @List.find?_some _ (fun x => x.id == oid) o offers hf'
    have htrue : check_self_interest offers oid uid = true :=
      List.any_eq_true.mpr ⟨o, hmem, by simp [hid, ho]⟩
    rw [htrue] at h
    cases h

/-! Preservation of well-formedness by the chat primitives. -/

theorem wf_upsertChatActive {db : DB} (h : WF db) {a b : Nat} (hab : a < b) :
    WF (upsertChatActive db a b) := by
  simp only [upsertChatActive]
  split
  next hex =>
    refine ⟨h.intOffer, h.intSelfFalse, h.intIdLt, h.intIdNodup, h.intPairNodup, ?_, ?_,
      h.propNoMirror, h.histAligned⟩
    · intro c hc
      rcases List.mem_map.mp hc with ⟨c0, hc0, rfl⟩
      split
      · exact h.chatCanon c0 hc0
      · exact h.chatCanon c0 hc0
    · refine List.pairwise_map.mpr (h.chatPairNodup.imp ?_)
      intro c d hcd
      have hA : ∀ c : Chat,
          ((if (c.userA == a && c.userB == b) = true then { c with status := CStatus.ACTIVE }
            else c) : Chat).userA = c.userA := by
        intro c; split <;> rfl
      have hB : ∀ c : Chat,
          ((if (c.userA == a && c.userB == b) = true then { c with status := CStatus.ACTIVE }
            else c) : Chat).userB = c.userB := by
        intro c; split <;> rfl
      rw [hA, hA, hB, hB]
      exact hcd
  next hex =>
    have hex' : db.chats.any (fun c => c.userA == a && c.userB == b) = false :=
      eq_false_of_ne_true hex
    have hall := List.any_eq_false.mp hex'
    refine ⟨h.intOffer, h.intSelfFalse, ?_, h.intIdNodup, h.intPairNodup, ?_, ?_,
      h.propNoMirror, h.histAligned⟩
    · intro i hi
      exact Nat.lt_succ_of_lt (h.intIdLt i hi)
    · intro c hc
      rcases List.mem_append.mp hc with h1 | h1
      · exact h.chatCanon c h1
      · rw [List.mem_singleton] at h1
        subst h1
        exact hab
    · refine List.pairwise_append.mpr ⟨h.chatPairNodup, List.pairwise_singleton .., ?_⟩
      intro c hc d hd
      rw [List.mem_singleton] at hd
      subst hd
      have hc2 := hall c hc
      simp only [Bool.and_eq_true, beq_iff_eq] at hc2
      simpa using not_and_or.mp hc2

theorem wf_create_chat {db : DB} (h : WF db) {new : Interest}
    (hns : ownerOf db.offers new.offerId ≠ some new.userId) :
    WF (create_chat_on_mutual_match db new) := by
  simp only [create_chat_on_mutual_match]
  split
  · exact h
  · split
    · exact h
    · next v hv =>
      split
      · exact h
      · have hvne : v ≠ new.userId := by
          rintro rfl
          exact hns hv
        exact wf_upsertChatActive h (canonPair_lt hvne)

theorem wf_setChatStatus {db : DB} (h : WF db) (cid u : Nat) (s : CStatus) :
    WF (setChatStatus db cid u s) := by
  simp only [setChatStatus]
  refine ⟨h.intOffer, h.intSelfFalse, h.intIdLt, h.intIdNodup, h.intPairNodup, ?_, ?_,
    h.propNoMirror, h.histAligned⟩
  · intro c hc
    rcases List.mem_map.mp hc with ⟨c0, hc0, rfl⟩
    split
    · exact h.chatCanon c0 hc0
    · exact h.chatCanon c0 hc0
  · refine List.pairwise_map.mpr (h.chatPairNodup.imp ?_)
    intro c d hcd
    have hA : ∀ c : Chat,
        ((if (c.id == cid && (c.userA == u || c.userB == u)) = true then { c with status := s }
          else c) : Chat).userA = c.userA := by
      intro c; split <;> rfl
    have hB : ∀ c : Chat,
        ((if (c.id == cid && (c.userA == u || c.userB == u)) = true then { c with status := s }
          else c) : Chat).userB = c.userB := by
      intro c; split <;> rfl
    rw [hA, hA, hB, hB]
    exact hcd

theorem wf_cancelInterest {db db' : DB} (h : WF db) {iid u : Nat}
    (hok : cancelInterest db iid u = Except.ok db') : WF db' := by
  unfold cancelInterest at hok
  cases hf : db.interests.find? (fun i => i.id == iid) with
  | none => rw [hf] at hok; cases hok
  | some i =>
    rw [hf] at hok
    dsimp only at hok
    by_cases h1 : i.userId ≠ u
    · rw [if_pos h1] at hok
      cases hok
    rw [if_neg h1] at hok
    by_cases h2 : i.status = IStatus.REALIZED
    · rw [if_pos h2] at hok
      cases hok
    rw [if_neg h2] at hok
    cases hok
    have hsub : (db.interests.filter (fun j => ¬(j.id == iid))).Sublist db.interests :=
      List.filter_sublist db.interests
    refine ⟨?_, ?_, ?_, List.Pairwise.sublist hsub h.intIdNodup,
      List.Pairwise.sublist hsub h.intPairNodup, h.chatCanon, h.chatPairNodup, ?_, h.histAligned⟩
    · intro i hi
      exact h.intOffer i (List.mem_filter.mp hi).1
    · intro i hi
      exact h.intSelfFalse i (List.mem_filter.mp hi).1
    · intro i hi
      exact h.intIdLt i (List.mem_filter.mp hi).1
    · intro i hi j hj hm
      exact h.propNoMirror i (List.mem_filter.mp hi).1 j (List.mem_filter.mp hj).1 hm

theorem wf_create_history {db : DB} (h : WF db) {old : IStatus} {new : Interest}
    (hns : ownerOf db.offers new.offerId ≠ some new.userId) :
    WF (create_exchange_history_on_realized db old new) := by
  simp only [create_exchange_history_on_realized]
  split
  · exact h
  · split
    · exact h
    · next otherOffer hfo =>
      split
      · exact h
      · next oi hfi =>
        split
        · exact h
        · next myOffer hfm =>
          split
          · exact h
          · next chat hch =>
            have hps := @List.find?_some _
              (fun i => i.userId == otherOffer.ownerId
                && ownerOf db.offers i.offerId == some new.userId
                && i.status == IStatus.REALIZED) oi db.interests hfi
            simp only [Bool.and_eq_true, beq_iff_eq] at hps
            obtain ⟨⟨hoiU, hoiO⟩, _⟩ := hps
            have hmy : myOffer.ownerId = new.userId := by
              have := hoiO
              unfold ownerOf at this
              rw [hfm] at this
              simpa using this
            have hvo : ownerOf db.offers new.offerId = some otherOffer.ownerId := by
              unfold ownerOf
              rw [hfo]
              rfl
            have hvne : otherOffer.ownerId ≠ new.userId := by
              intro he
              exact hns (he ▸ hvo)
            refine ⟨h.intOffer, h.intSelfFalse, ?_, h.intIdNodup, h.intPairNodup,
              h.chatCanon, h.chatPairNodup, h.propNoMirror, ?_⟩
            · intro i hi
              exact Nat.lt_succ_of_lt (h.intIdLt i hi)
            · intro r hr
              rcases List.mem_append.mp hr with h1 | h1
              · exact h.histAligned r h1
              · rw [List.mem_singleton] at h1
                subst h1
                refine ⟨canonPair_lt hvne, ?_, ?_⟩
                · by_cases hp1 : ((canonPair new.userId otherOffer.ownerId).1 == new.userId) = true
                  · rw [beq_iff_eq] at hp1
                    simp only [hp1, beq_self_eq_true, if_true]
                    exact ⟨oi.offerId, myOffer, rfl, hfm, by rw [hmy], rfl⟩
                  · have hpc : canonPair new.userId otherOffer.ownerId
                        = (otherOffer.ownerId, new.userId) := by
                      rcases canonPair_cases new.userId otherOffer.ownerId with hc | hc
                      · exfalso
                        apply hp1
                        rw [hc]
                        exact beq_self_eq_true _
                      · exact hc
                    rw [eq_false_of_ne_true hp1]
                    simp only [Bool.false_eq_true, if_false]
                    exact ⟨new.offerId, otherOffer, rfl, hfo, by rw [hpc], rfl⟩
                · by_cases hp1 : ((canonPair new.userId otherOffer.ownerId).1 == new.userId) = true
                  · rw [beq_iff_eq] at hp1
                    have hpc : canonPair new.userId otherOffer.ownerId
                        = (new.userId, otherOffer.ownerId) := by
                      rcases canonPair_cases new.userId otherOffer.ownerId with hc | hc
                      · exact hc
                      · exfalso
                        apply hvne
                        rw [hc] at hp1
                        exact hp1
                    simp only [hp1, beq_self_eq_true, if_true]
                    exact ⟨new.offerId, otherOffer, rfl, hfo, by rw [hpc], rfl⟩
                  · have hpc : canonPair new.userId otherOffer.ownerId
                        = (otherOffer.ownerId, new.userId) := by
                      rcases canonPair_cases new.userId otherOffer.ownerId with hc | hc
                      · exfalso
                        apply hp1
                        rw [hc]
                        exact beq_self_eq_true _
                      · exact hc
                    rw [eq_false_of_ne_true hp1]
                    simp only [Bool.false_eq_true, if_false]
                    exact ⟨oi.offerId, myOffer, rfl, hfm, by rw [hmy, hpc], rfl⟩

/-! Transfer of well-formedness along maps of the interests table that keep
the id, offer and user columns (status promotions and reverts). -/

theorem mirror_congr {offers : List Offer} {i i' j j' : Interest}
    (hio : i.offerId = i'.offerId) (hiu : i.userId = i'.userId)
    (hjo : j.offerId = j'.offerId) (hju : j.userId = j'.userId) :
    Mirror offers i j ↔ Mirror offers i' j' := by
  unfold Mirror
  rw [hio, hiu, hjo, hju]

theorem wf_interestMap (db : DB) (g : Interest → Interest)
    (hg : ∀ i ∈ db.interests, (g i).id = i.id ∧ (g i).offerId = i.offerId ∧ (g i).userId = i.userId)
    (hOf : ∀ i ∈ db.interests, (findOffer db.offers i.offerId).isSome = true)
    (hSf : ∀ i ∈ db.interests, check_self_interest db.offers i.offerId i.userId = false)
    (hLt : ∀ i ∈ db.interests, i.id < db.nextId)
    (hNd : db.interests.Pairwise (fun a b => a.id ≠ b.id))
    (hPd : db.interests.Pairwise (fun a b => a.offerId ≠ b.offerId ∨ a.userId ≠ b.userId))
    (hCc : ∀ c ∈ db.chats, c.userA < c.userB)
    (hCp : db.chats.Pairwise (fun a b => a.userA ≠ b.userA ∨ a.userB ≠ b.userB))
    (hPm : ∀ i ∈ db.interests, ∀ j ∈ db.interests, Mirror db.offers i j
      → (g i).status ≠ IStatus.PROPOSED)
    (hHa : ∀ r ∈ db.history, RecordAligned db.offers r) :
    WF { db with interests := db.interests.map g } := by
  refine ⟨?_, ?_, ?_, ?_, ?_, hCc, hCp, ?_, hHa⟩
  · intro x hx
    rcases List.mem_map.mp hx with ⟨i, hi, rfl⟩
    rw [(hg i hi).2.1]
    exact hOf i hi
  · intro x hx
    rcases List.mem_map.mp hx with ⟨i, hi, rfl⟩
    rw [(hg i hi).2.1, (hg i hi).2.2]
    exact hSf i hi
  · intro x hx
    rcases List.mem_map.mp hx with ⟨i, hi, rfl⟩
    rw [(hg i hi).1]
    exact hLt i hi
  · refine List.pairwise_map.mpr (hNd.imp_of_mem ?_)
    intro a b ha hb hab
    rw [(hg a ha).1, (hg b hb).1]
    exact hab
  · refine List.pairwise_map.mpr (hPd.imp_of_mem ?_)
    intro a b ha hb hab
    rw [(hg a ha).2.1, (hg b hb).2.1, (hg a ha).2.2, (hg b hb).2.2]
    exact hab
  · intro x hx y hy hm
    rcases List.mem_map.mp hx with ⟨i, hi, rfl⟩
    rcases List.mem_map.mp hy with ⟨j, hj, rfl⟩
    exact hPm i hi j hj
      ((mirror_congr (hg i hi).2.1 (hg i hi).2.2 (hg j hj).2.1 (hg j hj).2.2).mp hm)

/-! Shape of a successful expressInterest call. -/

theorem expressInterest_ok_shape {db : DB} {o u : Nat} {db' : DB} {iid : Nat}
    (hok : expressInterest db o u = Except.ok (db', iid)) :
    ∃ off, findOffer db.offers o = some off
      ∧ check_self_interest db.offers o u = false
      ∧ db.interests.any (fun i => i.offerId == o && i.userId == u) = false
      ∧ iid = db.nextId
      ∧ db' = matchEvaluate (insertProposed db o u) (newInterest db o u) := by
  unfold expressInterest at hok
  cases hf : findOffer db.offers o with
  | none =>
    rw [hf] at hok
    cases hok
  | some off =>
    rw [hf] at hok
    dsimp only at hok
    by_cases h1 : check_self_interest db.offers o u = true
    · rw [if_pos h1] at hok
      cases hok
    rw [if_neg h1] at hok
    by_cases h2 : db.interests.any (fun i => i.offerId == o && i.userId == u) = true
    · rw [if_pos h2] at hok
      cases hok
    rw [if_neg h2] at hok
    have hng : create_chat_on_mutual_match (insertProposed db o u) (newInterest db o u)
        = insertProposed db o u := rfl
    rw [hng] at hok
    injection hok with h3
    injection h3 with h4 h5
    exact ⟨off, rfl, eq_false_of_ne_true h1, eq_false_of_ne_true h2, h5.symm, h4.symm⟩

/-- Characterization of the Match Detector on a store whose offers table
resolves the new row's offer to owner b. -/
theorem matchEvaluate_eq (db : DB) (new : Interest) (b : Nat)
    (hb : ownerOf db.offers new.offerId = some b) :
    matchEvaluate db new =
      if (db.interests.filter (fun i => i.userId == b
          && ownerOf db.offers i.offerId == some new.userId)).isEmpty = true then db
      else
        create_chat_on_mutual_match
          { db with
              interests := db.interests.map fun i =>
                if (new.id :: (db.interests.filter (fun i2 => i2.userId == b
                      && ownerOf db.offers i2.offerId == some new.userId)).map
                    Interest.id).contains i.id && i.status == IStatus.PROPOSED
                then { i with status := IStatus.ACCEPTED } else i }
          { new with status := IStatus.ACCEPTED } := by
  simp only [matchEvaluate]
  rw [hb]

theorem wf_expressInterest {db : DB} (h : WF db) {o u : Nat} {db' : DB} {iid : Nat}
    (hok : expressInterest db o u = Except.ok (db', iid)) : WF db' := by
  obtain ⟨off, hf, hself, hdup, -, rfl⟩ := expressInterest_ok_shape hok
  have hb : ownerOf db.offers o = some off.ownerId := by
    unfold ownerOf
    rw [hf]
    rfl
  have hbu : off.ownerId ≠ u := by
    intro he
    exact ownerOf_ne_of_selfFalse hself (he ▸ hb)
  have hdup' := List.any_eq_false.mp hdup
  have hKo : (findOffer db.offers o).isSome = true := by
    rw [hf]
    rfl
  have hOf1 : ∀ i ∈ db.interests ++ [newInterest db o u],
      (findOffer db.offers i.offerId).isSome = true := by
    intro i hi
    rcases List.mem_append.mp hi with h1 | h1
    · exact h.intOffer i h1
    · rw [List.mem_singleton] at h1
      subst h1
      exact hKo
  have hSf1 : ∀ i ∈ db.interests ++ [newInterest db o u],
      check_self_interest db.offers i.offerId i.userId = false := by
    intro i hi
    rcases List.mem_append.mp hi with h1 | h1
    · exact h.intSelfFalse i h1
    · rw [List.mem_singleton] at h1
      subst h1
      exact hself
  have hLt1 : ∀ i ∈ db.interests ++ [newInterest db o u], i.id < db.nextId + 1 := by
    intro i hi
    rcases List.mem_append.mp hi with h1 | h1
    · exact Nat.lt_succ_of_lt (h.intIdLt i h1)
    · rw [List.mem_singleton] at h1
      subst h1
      exact Nat.lt_succ_self _
  have hNd1 : (db.interests ++ [newInterest db o u]).Pairwise (fun a b => a.id ≠ b.id) := by
    refine List.pairwise_append.mpr ⟨h.intIdNodup, List.pairwise_singleton .., ?_⟩
    intro a ha b hb2
    rw [List.mem_singleton] at hb2
    subst hb2
    exact Nat.ne_of_lt (h.intIdLt a ha)
  have hPd1 : (db.interests ++ [newInterest db o u]).Pairwise
      (fun a b => a.offerId ≠ b.offerId ∨ a.userId ≠ b.userId) := by
    refine List.pairwise_append.mpr ⟨h.intPairNodup, List.pairwise_singleton .., ?_⟩
    intro a ha b hb2
    rw [List.mem_singleton] at hb2
    subst hb2
    have ha2 := hdup' a ha
    simp only [Bool.and_eq_true, beq_iff_eq] at ha2
    simpa using not_and_or.mp ha2
  have hmirK : ∀ i ∈ db.interests, Mirror db.offers i (newInterest db o u) →
      (i.userId == off.ownerId && ownerOf db.offers i.offerId == some u) = true := by
    intro i hi hm
    have hm1 : ownerOf db.offers i.offerId = some u := hm.1
    have hm2 : ownerOf db.offers o = some i.userId := hm.2
    have hiu : off.ownerId = i.userId := Option.some.inj (hb.symm.trans hm2)
    simp [hm1, ← hiu]
  have hmirKj : ∀ j ∈ db.interests, Mirror db.offers (newInterest db o u) j →
      (j.userId == off.ownerId && ownerOf db.offers j.offerId == some u) = true := by
    intro j hj hm
    have hm1 : ownerOf db.offers o = some j.userId := hm.1
    have hm2 : ownerOf db.offers j.offerId = some u := hm.2
    have hju : off.ownerId = j.userId := Option.some.inj (hb.symm.trans hm1)
    simp [hm2, ← hju]
  have hmirKK : ¬ Mirror db.offers (newInterest db o u) (newInterest db o u) := by
    intro hm
    have hm2 : ownerOf db.offers o = some u := hm.2
    exact hbu (Option.some.inj (hb.symm.trans hm2))
  rw [matchEvaluate_eq (insertProposed db o u) (newInterest db o u) off.ownerId hb]
  have e1 : (insertProposed db o u).interests = db.interests ++ [newInterest db o u] := rfl
  have e2 : (insertProposed db o u).offers = db.offers := rfl
  have e3 : (newInterest db o u).userId = u := rfl
  have e4 : (newInterest db o u).id = db.nextId := rfl
  rw [e1, e2, e3, e4]
  have hfK : List.filter (fun i => i.userId == off.ownerId
      && ownerOf db.offers i.offerId == some u) [newInterest db o u] = [] := by
    have : ((newInterest db o u).userId == off.ownerId) = false :=
      beq_eq_false_iff_ne.mpr (Ne.symm hbu)
    simp [List.filter_cons, this]
  simp only [List.filter_append, hfK, List.append_nil]
  split
  next hemp =>
    have hflt := List.isEmpty_iff.mp hemp
    have hnp := List.filter_eq_nil_iff.mp hflt
    refine ⟨hOf1, hSf1, hLt1, hNd1, hPd1, h.chatCanon, h.chatPairNodup, ?_, h.histAligned⟩
    intro i hi j hj hm
    rcases List.mem_append.mp hi with h1 | h1
    · rcases List.mem_append.mp hj with h2 | h2
      · exact h.propNoMirror i h1 j h2 hm
      · rw [List.mem_singleton] at h2
        subst h2
        exact absurd (hmirK i h1 hm) (hnp i h1)
    · rw [List.mem_singleton] at h1
      subst h1
      rcases List.mem_append.mp hj with h2 | h2
      · exact absurd (hmirKj j h2 hm) (hnp j h2)
      · rw [List.mem_singleton] at h2
        subst h2
        exact absurd hm hmirKK
  next hemp =>
    refine wf_create_chat ?_ ?_
    · refine wf_interestMap (insertProposed db o u)
        (fun i => if (db.nextId :: (List.filter (fun i2 => i2.userId == off.ownerId
              && ownerOf db.offers i2.offerId == some u) db.interests).map
            Interest.id).contains i.id && i.status == IStatus.PROPOSED
          then { i with status := IStatus.ACCEPTED } else i)
        (fun i _ => ⟨by dsimp only; split <;> rfl, by dsimp only; split <;> rfl,
          by dsimp only; split <;> rfl⟩)
        hOf1 hSf1 hLt1 hNd1 hPd1 h.chatCanon h.chatPairNodup ?_ h.histAligned
      intro i hi j hj hm
      dsimp only
      by_cases hcond : ((db.nextId :: (List.filter (fun i2 => i2.userId == off.ownerId
            && ownerOf db.offers i2.offerId == some u) db.interests).map
          Interest.id).contains i.id && i.status == IStatus.PROPOSED) = true
      · rw [if_pos hcond]
        intro hP
        cases hP
      · rw [if_neg hcond]
        intro hP
        have hcont : ¬ (db.nextId :: (List.filter (fun i2 => i2.userId == off.ownerId
            && ownerOf db.offers i2.offerId == some u) db.interests).map
            Interest.id).contains i.id = true := by
          intro hc
          exact hcond (by rw [hc, hP]; rfl)
        rcases List.mem_append.mp hi with h1 | h1
        · rcases List.mem_append.mp hj with h2 | h2
          · exact h.propNoMirror i h1 j h2 hm hP
          · rw [List.mem_singleton] at h2
            subst h2
            apply hcont
            have hif : i ∈ List.filter (fun i2 => i2.userId == off.ownerId
                && ownerOf db.offers i2.offerId == some u) db.interests :=
              List.mem_filter.mpr ⟨h1, hmirK i h1 hm⟩
            exact List.elem_iff.mpr (List.mem_cons.mpr (Or.inr (List.mem_map.mpr ⟨i, hif, rfl⟩)))
        · rw [List.mem_singleton] at h1
          subst h1
          apply hcont
          exact List.elem_iff.mpr (List.mem_cons_self ..)
    · show ownerOf db.offers o ≠ some u
      rw [hb]
      intro he
      exact hbu (Option.some.inj he)

/-! Shape of successful realize and unrealize calls. -/

theorem realize_ok_shape {db : DB} {iid u : Nat} {db' : DB} {out : RealizeOutcome}
    (hok : realize db iid u = Except.ok (db', out)) :
    ∃ i, db.interests.find? (fun j => j.id == iid) = some i
      ∧ i.userId = u ∧ i.status = IStatus.ACCEPTED
      ∧ db' = create_exchange_history_on_realized (setRow db iid (realizedRow i db.now))
          IStatus.ACCEPTED (realizedRow i db.now)
      ∧ out = (if mirrorRealized db' (realizedRow i db.now) then RealizeOutcome.completed
          else RealizeOutcome.awaiting) := by
  unfold realize at hok
  cases hf : db.interests.find? (fun j => j.id == iid) with
  | none =>
    rw [hf] at hok
    cases hok
  | some i =>
    rw [hf] at hok
    dsimp only at hok
    by_cases h1 : i.userId ≠ u
    · rw [if_pos h1] at hok
      cases hok
    rw [if_neg h1] at hok
    by_cases h2 : i.status ≠ IStatus.ACCEPTED
    · rw [if_pos h2] at hok
      cases hok
    rw [if_neg h2] at hok
    have h2' : i.status = IStatus.ACCEPTED := not_ne_iff.mp h2
    have hng : create_chat_on_mutual_match (setRow db iid (realizedRow i db.now))
        (realizedRow i db.now) = setRow db iid (realizedRow i db.now) := rfl
    rw [hng, h2'] at hok
    injection hok with h3
    injection h3 with h4 h5
    exact ⟨i, rfl, not_ne_iff.mp h1, h2', h4.symm, by rw [← h4, ← h5]⟩

theorem unrealize_ok_shape {db : DB} {iid u : Nat} {db' : DB}
    (hok : unrealize db iid u = Except.ok db') :
    ∃ i, db.interests.find? (fun j => j.id == iid) = some i
      ∧ i.userId = u ∧ i.status = IStatus.REALIZED
      ∧ mirrorRealized db i = false
      ∧ db' = create_chat_on_mutual_match (setRow db iid (clearedRow i)) (clearedRow i) := by
  unfold unrealize at hok
  cases hf : db.interests.find? (fun j => j.id == iid) with
  | none =>
    rw [hf] at hok
    cases hok
  | some i =>
    rw [hf] at hok
    dsimp only at hok
    by_cases h1 : i.userId ≠ u
    · rw [if_pos h1] at hok
      cases hok
    rw [if_neg h1] at hok
    by_cases h2 : i.status ≠ IStatus.REALIZED
    · rw [if_pos h2] at hok
      cases hok
    rw [if_neg h2] at hok
    by_cases h3 : mirrorRealized db i = true
    · rw [if_pos h3] at hok
      cases hok
    rw [if_neg h3] at hok
    have hng : create_exchange_history_on_realized
        (create_chat_on_mutual_match (setRow db iid (clearedRow i)) (clearedRow i))
        i.status (clearedRow i)
        = create_chat_on_mutual_match (setRow db iid (clearedRow i)) (clearedRow i) := rfl
    rw [hng] at hok
    injection hok with h4
    exact ⟨i, rfl, not_ne_iff.mp h1, not_ne_iff.mp h2, eq_false_of_ne_true h3, h4.symm⟩

/-! Well-formedness is preserved by realize and unrealize. -/

theorem wf_setRow {db : DB} (h : WF db) {i : Interest}
    (hfind : db.interests.find? (fun j => j.id == i.id) = some i)
    {r : Interest} (hrid : r.id = i.id) (hro : r.offerId = i.offerId)
    (hru : r.userId = i.userId) (hrs : r.status ≠ IStatus.PROPOSED) :
    WF (setRow db i.id r) := by
  have hmem := List.mem_of_find?_eq_some hfind
  refine wf_interestMap db (fun j => if j.id == i.id then r else j) ?_ h.intOffer h.intSelfFalse
    h.intIdLt h.intIdNodup h.intPairNodup h.chatCanon h.chatPairNodup ?_ h.histAligned
  · intro j hj
    refine ⟨?_, ?_, ?_⟩ <;> dsimp only <;> split
    · next he =>
      rw [beq_iff_eq] at he
      rw [hrid, he]
    · rfl
    · next he =>
      rw [beq_iff_eq] at he
      have : j = i := interest_eq_of_id h.intIdNodup hj hmem he
      rw [hro, this]
    · rfl
    · next he =>
      rw [beq_iff_eq] at he
      have : j = i := interest_eq_of_id h.intIdNodup hj hmem he
      rw [hru, this]
    · rfl
  · intro x hx y hy hm
    dsimp only
    split
    · exact hrs
    · exact h.propNoMirror x hx y hy hm

theorem wf_realize {db : DB} (h : WF db) {iid u : Nat} {db' : DB} {out : RealizeOutcome}
    (hok : realize db iid u = Except.ok (db', out)) : WF db' := by
  obtain ⟨i, hfind, hiu, hacc, rfl, -⟩ := realize_ok_shape hok
  have hid : (i.id == iid) = true := @List.find?_some _ (fun j => j.id == iid) i db.interests hfind
  rw [beq_iff_eq] at hid
  subst hid
  have hmem := List.mem_of_find?_eq_some hfind
  have hwf1 : WF (setRow db i.id (realizedRow i db.now)) :=
    wf_setRow h hfind rfl rfl rfl (by intro hc; cases hc)
  refine wf_create_history hwf1 ?_
  show ownerOf db.offers i.offerId ≠ some i.userId
  exact ownerOf_ne_of_selfFalse (h.intSelfFalse i hmem)

theorem wf_unrealize {db : DB} (h : WF db) {iid u : Nat} {db' : DB}
    (hok : unrealize db iid u = Except.ok db') : WF db' := by
  obtain ⟨i, hfind, hiu, hreal, hmir, rfl⟩ := unrealize_ok_shape hok
  have hid : (i.id == iid) = true := @List.find?_some _ (fun j => j.id == iid) i db.interests hfind
  rw [beq_iff_eq] at hid
  subst hid
  have hmem := List.mem_of_find?_eq_some hfind
  have hwf1 : WF (setRow db i.id (clearedRow i)) :=
    wf_setRow h hfind rfl rfl rfl (by intro hc; cases hc)
  refine wf_create_chat hwf1 ?_
  show ownerOf db.offers i.offerId ≠ some i.userId
  exact ownerOf_ne_of_selfFalse (h.intSelfFalse i hmem)

/-! Every reachable store is well-formed. -/

theorem wf_applyOp {db : DB} (h : WF db) (op : Op) : WF (applyOp db op) := by
  cases op with
  | express o u =>
    simp only [applyOp]
    cases he : expressInterest db o u with
    | error e => exact h
    | ok p =>
      obtain ⟨d, n⟩ := p
      exact wf_expressInterest h he
  | cancel i u =>
    simp only [applyOp]
    cases he : cancelInterest db i u with
    | error e => exact h
    | ok d => exact wf_cancelInterest h he
  | realizeOp i u =>
    simp only [applyOp]
    cases he : realize db i u with
    | error e => exact h
    | ok p =>
      obtain ⟨d, n⟩ := p
      exact wf_realize h he
  | unrealizeOp i u =>
    simp only [applyOp]
    cases he : unrealize db i u with
    | error e => exact h
    | ok d => exact wf_unrealize h he
  | setChat c u st => exact wf_setChatStatus h c u st

theorem wf_runOps {db : DB} (h : WF db) (ops : List Op) : WF (runOps db ops) := by
  induction ops generalizing db with
  | nil => exact h
  | cons op t ih => exact ih (wf_applyOp h op)

theorem wf_initDB (offers : List Offer) : WF (initDB offers) := by
  refine ⟨?_, ?_, ?_, ?_, ?_, ?_, ?_, ?_, ?_⟩ <;>
    first
      | exact List.Pairwise.nil
      | exact fun i hi => absurd hi (List.not_mem_nil _)

theorem reachable_wf {db : DB} (h : Reachable db) : WF db := by
  obtain ⟨offers, ops, rfl⟩ := h
  exact wf_runOps (wf_initDB offers) ops

/-! Helper facts used by the claim theorems. -/

theorem mirrorRealized_true {db : DB} {i j : Interest} (hj : j ∈ db.interests)
    (hm : Mirror db.offers i j) (hjr : j.status = IStatus.REALIZED) :
    mirrorRealized db i = true := by
  unfold mirrorRealized
  rw [hm.1]
  exact List.any_eq_true.mpr ⟨j, hj, by simp [hm.2, hjr]⟩

theorem cancelInterest_ok_shape {db : DB} {iid u : Nat} {db' : DB}
    (hok : cancelInterest db iid u = Except.ok db') :
    ∃ i, db.interests.find? (fun j => j.id == iid) = some i
      ∧ i.userId = u ∧ i.status ≠ IStatus.REALIZED
      ∧ db' = { db with interests := db.interests.filter (fun j => ¬(j.id == iid)) } := by
  unfold cancelInterest at hok
  cases hf : db.interests.find? (fun j => j.id == iid) with
  | none =>
    rw [hf] at hok
    cases hok
  | some i =>
    rw [hf] at hok
    dsimp only at hok
    by_cases h1 : i.userId ≠ u
    · rw [if_pos h1] at hok
      cases hok
    rw [if_neg h1] at hok
    by_cases h2 : i.status = IStatus.REALIZED
    · rw [if_pos h2] at hok
      cases hok
    rw [if_neg h2] at hok
    injection hok with h3
    exact ⟨i, rfl, not_ne_iff.mp h1, h2, h3.symm⟩

theorem matchEvaluate_mem_stable {db : DB} {x : Interest} (hx : x ∈ db.interests)
    (hs : x.status ≠ IStatus.PROPOSED) (new : Interest) :
    x ∈ (matchEvaluate db new).interests := by
  simp only [matchEvaluate]
  split
  · exact hx
  · split
    · exact hx
    · rw [chatTrigger_interests]
      refine List.mem_map.mpr ⟨x, hx, ?_⟩
      have hb2 : (x.status == IStatus.PROPOSED) = false := beq_eq_false_iff_ne.mpr hs
      simp [hb2]

/-- A REALIZED interest whose mirrored interest is also REALIZED survives every
operation unchanged. -/
theorem absorbing_row {db : DB} (h : WF db) {i j : Interest}
    (hi : i ∈ db.interests) (hj : j ∈ db.interests)
    (hm : Mirror db.offers i j)
    (hir : i.status = IStatus.REALIZED) (hjr : j.status = IStatus.REALIZED)
    (op : Op) : i ∈ (applyOp db op).interests := by
  cases op with
  | express o u =>
    simp only [applyOp]
    cases he : expressInterest db o u with
    | error e => exact hi
    | ok p =>
      obtain ⟨d, n⟩ := p
      obtain ⟨off, hf, hself, hdup, -, rfl⟩ := expressInterest_ok_shape he
      refine matchEvaluate_mem_stable ?_ (by rw [hir]; intro hc; cases hc) _
      exact List.mem_append.mpr (Or.inl hi)
  | cancel t u =>
    simp only [applyOp]
    cases he : cancelInterest db t u with
    | error e => exact hi
    | ok d =>
      obtain ⟨x, hfind, hxu, hxs, rfl⟩ := cancelInterest_ok_shape he
      have hxid : (x.id == t) = true := @List.find?_some _ (fun j => j.id == t) x db.interests hfind
      rw [beq_iff_eq] at hxid
      have hxmem := List.mem_of_find?_eq_some hfind
      have hne : i.id ≠ t := by
        intro heq
        have : i = x := interest_eq_of_id h.intIdNodup hi hxmem (heq.trans hxid.symm)
        rw [← this] at hxs
        exact hxs hir
      refine List.mem_filter.mpr ⟨hi, ?_⟩
      simp [hne]
  | realizeOp t u =>
    simp only [applyOp]
    cases he : realize db t u with
    | error e => exact hi
    | ok p =>
      obtain ⟨d, n⟩ := p
      obtain ⟨x, hfind, hxu, hxs, rfl, -⟩ := realize_ok_shape he
      have hxid : (x.id == t) = true := @List.find?_some _ (fun j => j.id == t) x db.interests hfind
      rw [beq_iff_eq] at hxid
      have hxmem := List.mem_of_find?_eq_some hfind
      have hne : i.id ≠ t := by
        intro heq
        have hix : i = x := interest_eq_of_id h.intIdNodup hi hxmem (heq.trans hxid.symm)
        rw [← hix] at hxs
        rw [hir] at hxs
        cases hxs
      rw [histTrigger_interests]
      refine List.mem_map.mpr ⟨i, hi, ?_⟩
      simp [hne]
  | unrealizeOp t u =>
    simp only [applyOp]
    cases he : unrealize db t u with
    | error e => exact hi
    | ok d =>
      obtain ⟨x, hfind, hxu, hxs, hxm, rfl⟩ := unrealize_ok_shape he
      have hxid : (x.id == t) = true := @List.find?_some _ (fun j => j.id == t) x db.interests hfind
      rw [beq_iff_eq] at hxid
      have hxmem := List.mem_of_find?_eq_some hfind
      have hne : i.id ≠ t := by
        intro heq
        have hix : i = x := interest_eq_of_id h.intIdNodup hi hxmem (heq.trans hxid.symm)
        rw [← hix] at hxm
        rw [mirrorRealized_true hj hm hjr] at hxm
        cases hxm
      rw [chatTrigger_interests]
      refine List.mem_map.mpr ⟨i, hi, ?_⟩
      simp [hne]
  | setChat c u st => exact hi

/-! Concrete scenario stores used to witness the claims: users 1 and 2, offers
10 and 12 owned by user 1, offers 11 and 13 owned by user 2. -/

def exOffers : List Offer := [⟨10, 1, "t10"⟩, ⟨11, 2, "t11"⟩, ⟨12, 1, "t12"⟩, ⟨13, 2, "t13"⟩]

/-- One-sided interest: user 1 PROPOSED on offer 11. -/
def exProposed : DB := runOps (initDB exOffers) [Op.express 11 1]

/-- Mutual match between users 1 and 2 on offers 11 and 10. -/
def exMatched : DB := runOps (initDB exOffers) [Op.express 11 1, Op.express 10 2]

/-- User 1 has realized, user 2 has not yet. -/
def exHalf : DB := runOps (initDB exOffers) [Op.express 11 1, Op.express 10 2, Op.realizeOp 0 1]

/-- Both sides realized: the exchange is complete. -/
def exDone : DB :=
  runOps (initDB exOffers) [Op.express 11 1, Op.express 10 2, Op.realizeOp 0 1, Op.realizeOp 1 2]

/-! Claim theorems. -/

/-- C4 (amended): in every reachable store, if an interest has status ACCEPTED
then every coexisting mirrored interest is not PROPOSED (it is ACCEPTED or
REALIZED): evaluation never leaves one side promoted with the other side
still PROPOSED. -/
theorem c4_no_half_match (db : DB) (hr : Reachable db) :
    ∀ i ∈ db.interests, i.status = IStatus.ACCEPTED →
      ∀ j ∈ db.interests, Mirror db.offers i j → j.status ≠ IStatus.PROPOSED := by
  intro i hi _ j hj hm
  exact (reachable_wf hr).propNoMirror j hj i hi ⟨hm.2, hm.1⟩

/-- C4 witness: in the matched scenario, the mirrored interest of the
ACCEPTED interest of user 1 is not PROPOSED. -/
theorem c4_no_half_match_witness :
    (⟨1, 10, 2, IStatus.ACCEPTED, none⟩ : Interest).status ≠ IStatus.PROPOSED :=
  c4_no_half_match exMatched ⟨exOffers, [Op.express 11 1, Op.express 10 2], rfl⟩
    ⟨0, 11, 1, IStatus.ACCEPTED, none⟩ (by decide) rfl
    ⟨1, 10, 2, IStatus.ACCEPTED, none⟩ (by decide) (by decide)

/-- C4 as literally stated is false: after one side realizes, an ACCEPTED
interest exists whose mirrored interest is REALIZED, not ACCEPTED. -/
theorem c4_literal_counterexample :
    ¬ ∀ db, Reachable db → ∀ i ∈ db.interests, i.status = IStatus.ACCEPTED →
        ∃ j ∈ db.interests, Mirror db.offers i j ∧ j.status = IStatus.ACCEPTED := by
  intro hclaim
  have h2 := hclaim exHalf
    ⟨exOffers, [Op.express 11 1, Op.express 10 2, Op.realizeOp 0 1], rfl⟩
    ⟨1, 10, 2, IStatus.ACCEPTED, none⟩ (by decide) rfl
  exact absurd h2 (by decide)

/-- C5: realize fails with Forbidden when called by a user other than the
interest's user, fails with BadStatus whenever the status is not ACCEPTED
(in particular on a PROPOSED interest), and otherwise succeeds, storing the
row with status REALIZED and realized-at set, reporting completed exactly
when the mirrored interest is also REALIZED, else awaiting. -/
theorem c5_realize_semantics (db : DB) (iid u : Nat) :
    (db.interests.find? (fun j => j.id == iid) = none →
      realize db iid u = Except.error CoreError.NotFound)
    ∧ ∀ i, db.interests.find? (fun j => j.id == iid) = some i →
      (i.userId ≠ u → realize db iid u = Except.error CoreError.Forbidden)
      ∧ (i.userId = u → i.status ≠ IStatus.ACCEPTED →
          realize db iid u = Except.error CoreError.BadStatus)
      ∧ (i.userId = u → i.status = IStatus.ACCEPTED →
          ∃ db' out, realize db iid u = Except.ok (db', out)
            ∧ realizedRow i db.now ∈ db'.interests
            ∧ (out = RealizeOutcome.completed
                ↔ mirrorRealized db' (realizedRow i db.now) = true)) := by
  constructor
  · intro hn
    unfold realize
    rw [hn]
  · intro i hf
    have hid : (i.id == iid) = true := @List.find?_some _ (fun j => j.id == iid) i db.interests hf
    have hmem := List.mem_of_find?_eq_some hf
    refine ⟨?_, ?_, ?_⟩
    · intro hne
      unfold realize
      rw [hf]
      dsimp only
      rw [if_pos hne]
    · intro hequ hns
      unfold realize
      rw [hf]
      dsimp only
      rw [if_neg (not_ne_iff.mpr hequ), if_pos hns]
    · intro hequ hs
      refine ⟨create_exchange_history_on_realized (setRow db iid (realizedRow i db.now))
          i.status (realizedRow i db.now),
        if mirrorRealized (create_exchange_history_on_realized
            (setRow db iid (realizedRow i db.now)) i.status (realizedRow i db.now))
            (realizedRow i db.now)
          then RealizeOutcome.completed else RealizeOutcome.awaiting, ?_, ?_, ?_⟩
      · unfold realize
        rw [hf]
        dsimp only
        rw [if_neg (not_ne_iff.mpr hequ), if_neg (not_ne_iff.mpr hs)]
        rfl
      · rw [histTrigger_interests]
        refine List.mem_map.mpr ⟨i, hmem, ?_⟩
        simp [hid]
      · by_cases hmr : mirrorRealized
            (create_exchange_history_on_realized (setRow db iid (realizedRow i db.now))
              i.status (realizedRow i db.now)) (realizedRow i db.now) = true
        · simp [hmr]
        · simp [hmr]

/-- C7: expressing interest in an offer owned by the calling user always fails
with SelfInterest and leaves the store unchanged. -/
theorem c7_self_interest (db : DB) (o u : Nat) (h : ownerOf db.offers o = some u) :
    expressInterest db o u = Except.error CoreError.SelfInterest
    ∧ applyOp db (Op.express o u) = db := by
  unfold ownerOf at h
  cases hf : findOffer db.offers o with
  | none =>
    rw [hf] at h
    cases h
  | some off =>
    rw [hf] at h
    have ho : off.ownerId = u := by simpa using h
    have hf' : db.offers.find? (fun x => x.id == o) = some off := hf
    have hmem := List.mem_of_find?_eq_some hf'
    have hid : (off.id == o) = true := @List.find?_some _ (fun x => x.id == o) off db.offers hf'
    have htrue : check_self_interest db.offers o u = true :=
      List.any_eq_true.mpr ⟨off, hmem, by simp [hid, ho]⟩
    have he : expressInterest db o u = Except.error CoreError.SelfInterest := by
      unfold expressInterest
      rw [hf]
      dsimp only
      rw [if_pos htrue]
    refine ⟨he, ?_⟩
    simp only [applyOp]
    rw [he]

/-- C7 witness: in the initial scenario store, user 1 expressing interest in
the own offer 10 fails with SelfInterest and changes nothing. -/
theorem c7_self_interest_witness :
    expressInterest (initDB exOffers) 10 1 = Except.error CoreError.SelfInterest
    ∧ applyOp (initDB exOffers) (Op.express 10 1) = initDB exOffers :=
  c7_self_interest (initDB exOffers) 10 1 (by decide)

/-- C9: cancelInterest fails with NotFound when the interest does not exist,
with Forbidden when called by another user, with AlreadyRealized on a
REALIZED interest, and on a PROPOSED or ACCEPTED interest deletes the
record. -/
theorem c9_cancel_semantics (db : DB) (iid u : Nat) :
    (db.interests.find? (fun j => j.id == iid) = none →
      cancelInterest db iid u = Except.error CoreError.NotFound)
    ∧ ∀ i, db.interests.find? (fun j => j.id == iid) = some i →
      (i.userId ≠ u → cancelInterest db iid u = Except.error CoreError.Forbidden)
      ∧ (i.userId = u → i.status = IStatus.REALIZED →
          cancelInterest db iid u = Except.error CoreError.AlreadyRealized)
      ∧ (i.userId = u → i.status ≠ IStatus.REALIZED →
          cancelInterest db iid u = Except.ok
            { db with interests := db.interests.filter (fun j => ¬(j.id == iid)) }) := by
  constructor
  · intro hn
    unfold cancelInterest
    rw [hn]
  · intro i hf
    refine ⟨?_, ?_, ?_⟩
    · intro hne
      unfold cancelInterest
      rw [hf]
      dsimp only
      rw [if_pos hne]
    · intro hequ hs
      unfold cancelInterest
      rw [hf]
      dsimp only
      rw [if_neg (not_ne_iff.mpr hequ), if_pos hs]
    · intro hequ hs
      unfold cancelInterest
      rw [hf]
      dsimp only
      rw [if_neg (not_ne_iff.mpr hequ), if_neg hs]

/-- C10: every exchange record in a reachable store is aligned with the
canonical user order: offer_a_id and offer_a_title refer to the offer owned
by user_a (the smaller user id) and offer_b_id, offer_b_title to the offer
owned by user_b. -/
theorem c10_record_alignment (db : DB) (hr : Reachable db) :
    ∀ r ∈ db.history, r.userA < r.userB
      ∧ (∃ a o, r.offerAId = some a ∧ findOffer db.offers a = some o
          ∧ o.ownerId = r.userA ∧ o.title = r.offerATitle)
      ∧ (∃ b o2, r.offerBId = some b ∧ findOffer db.offers b = some o2
          ∧ o2.ownerId = r.userB ∧ o2.title = r.offerBTitle) :=
  fun r hr2 => (reachable_wf hr).histAligned r hr2

/-- C6: once both mirrored interests are REALIZED, that state is terminal and
absorbing: unrealize by the confirming user fails with AlreadyCompleted and
no operation changes or removes either record; before the mirror has reached
REALIZED, unrealize by the confirming user succeeds, reverting the row to
ACCEPTED with realized-at cleared. -/
theorem c6_terminal_absorbing (db : DB) (hr : Reachable db) :
    (∀ i ∈ db.interests, ∀ j ∈ db.interests, Mirror db.offers i j →
        i.status = IStatus.REALIZED → j.status = IStatus.REALIZED →
      unrealize db i.id i.userId = Except.error CoreError.AlreadyCompleted
      ∧ ∀ op, i ∈ (applyOp db op).interests)
    ∧ (∀ i ∈ db.interests, i.status = IStatus.REALIZED → mirrorRealized db i = false →
        ∃ db', unrealize db i.id i.userId = Except.ok db'
          ∧ clearedRow i ∈ db'.interests) := by
  have h := reachable_wf hr
  constructor
  · intro i hi j hj hm hir hjr
    constructor
    · have hfind := find?_id_of_mem h.intIdNodup hi
      unfold unrealize
      rw [hfind]
      dsimp only
      rw [if_neg (not_ne_iff.mpr rfl), if_neg (not_ne_iff.mpr hir),
        if_pos (mirrorRealized_true hj hm hjr)]
    · exact fun op => absorbing_row h hi hj hm hir hjr op
  · intro i hi hir hmf
    have hfind := find?_id_of_mem h.intIdNodup hi
    have hid : (i.id == i.id) = true := beq_self_eq_true _
    refine ⟨create_chat_on_mutual_match (setRow db i.id (clearedRow i)) (clearedRow i), ?_, ?_⟩
    · unfold unrealize
      rw [hfind]
      dsimp only
      rw [if_neg (not_ne_iff.mpr rfl), if_neg (not_ne_iff.mpr hir), if_neg (by simp [hmf])]
      rfl
    · rw [chatTrigger_interests]
      refine List.mem_map.mpr ⟨i, hi, ?_⟩
      simp [hid]

/-- C8: while a live interest record exists for an (offer, user) pair, a
second expressInterest for the same pair fails with DuplicateInterest; after
a successful cancelInterest on that record the pair can be expressed again. -/
theorem c8_duplicate_until_cancelled (db : DB) (hr : Reachable db) :
    ∀ i ∈ db.interests,
      expressInterest db i.offerId i.userId = Except.error CoreError.DuplicateInterest
      ∧ ∀ db', cancelInterest db i.id i.userId = Except.ok db' →
          ∃ db'' iid2, expressInterest db' i.offerId i.userId = Except.ok (db'', iid2) := by
  intro i hi
  have h := reachable_wf hr
  obtain ⟨off, hf⟩ := Option.isSome_iff_exists.mp (h.intOffer i hi)
  have hsf := h.intSelfFalse i hi
  constructor
  · have hdupT : db.interests.any (fun x => x.offerId == i.offerId && x.userId == i.userId)
        = true := List.any_eq_true.mpr ⟨i, hi, by simp⟩
    unfold expressInterest
    rw [hf]
    dsimp only
    rw [if_neg (by simp [hsf]), if_pos hdupT]
  · intro db' hc
    obtain ⟨x, hfind, hxu, hxs, rfl⟩ := cancelInterest_ok_shape hc
    have hxid : (x.id == i.id) = true :=
      @List.find?_some _ (fun j => j.id == i.id) x db.interests hfind
    rw [beq_iff_eq] at hxid
    have hxmem := List.mem_of_find?_eq_some hfind
    have hdup2 : (db.interests.filter (fun j => ¬(j.id == i.id))).any
        (fun x2 => x2.offerId == i.offerId && x2.userId == i.userId) = false := by
      rw [List.any_eq_false]
      intro y hy
      rcases List.mem_filter.mp hy with ⟨hymem, hyid⟩
      intro hyeq
      simp only [Bool.and_eq_true, beq_iff_eq] at hyeq
      by_cases hyi : y = i
      · subst hyi
        simp at hyid
      · have hpair := h.intPairNodup.forall
          (fun _ _ hab => hab.imp Ne.symm Ne.symm) hymem hi hyi
        rcases hpair with hO | hU
        · exact hO hyeq.1
        · exact hU hyeq.2
    unfold expressInterest
    dsimp only
    rw [hf]
    dsimp only
    rw [if_neg (by simp [hsf]), if_neg (fun hcc => by rw [hdup2] at hcc; cases hcc)]
    exact ⟨_, _, rfl⟩

/-- Two consecutive exchanges between users 1 and 2: offers 11 and 10 are
matched and both realized, then offers 13 and 12 are matched and both
realized. -/
def c2Ops : List Op :=
  [Op.express 11 1, Op.express 10 2, Op.realizeOp 0 1, Op.realizeOp 1 2,
   Op.express 13 1, Op.express 12 2, Op.realizeOp 4 1, Op.realizeOp 5 2]

def c2DB : DB := runOps (initDB exOffers) c2Ops

/-- C2 fails on the code: after the second exchange between the same users
completes (both mirrored interests on offers 13 and 12 are REALIZED), the
history holds no record for that offer pair at all; instead the trigger
paired each newly REALIZED interest with a REALIZED reciprocal left over
from the first exchange, inserting records for the never-exchanged offer
pairs (10, 13) and (12, 11) beside the correct first record (10, 11). -/
theorem c2_history_not_per_pair :
    (⟨4, 13, 1, IStatus.REALIZED, some 0⟩ : Interest) ∈ c2DB.interests
    ∧ (⟨5, 12, 2, IStatus.REALIZED, some 0⟩ : Interest) ∈ c2DB.interests
    ∧ Mirror c2DB.offers ⟨4, 13, 1, IStatus.REALIZED, some 0⟩ ⟨5, 12, 2, IStatus.REALIZED, some 0⟩
    ∧ (c2DB.history.filter (fun r =>
        (r.offerAId == some 12 && r.offerBId == some 13)
        || (r.offerAId == some 13 && r.offerBId == some 12))).length = 0
    ∧ (c2DB.history.filter (fun r => r.offerAId == some 10 && r.offerBId == some 13)).length = 1
    ∧ (c2DB.history.filter (fun r => r.offerAId == some 12 && r.offerBId == some 11)).length = 1
    ∧ c2DB.history.length = 3 := by
  decide

/-- C1: for users A and B with offer oa owned by A and offer ob owned by B,
after expressInterest(ob, A) and expressInterest(oa, B) in either order both
interests have status ACCEPTED and exactly one chat exists, holding the
canonical pair (A, B) with status ACTIVE. -/
theorem c1_mutual_match (A B oa ob : Nat) (tA tB : String) (hAB : A ≠ B) (hO : oa ≠ ob) :
    ((runOps (initDB [⟨oa, A, tA⟩, ⟨ob, B, tB⟩]) [Op.express ob A, Op.express oa B]).interests
        = [⟨0, ob, A, IStatus.ACCEPTED, none⟩, ⟨1, oa, B, IStatus.ACCEPTED, none⟩]
      ∧ (runOps (initDB [⟨oa, A, tA⟩, ⟨ob, B, tB⟩]) [Op.express ob A, Op.express oa B]).chats
        = [⟨2, (canonPair A B).1, (canonPair A B).2, CStatus.ACTIVE⟩])
    ∧ ((runOps (initDB [⟨oa, A, tA⟩, ⟨ob, B, tB⟩]) [Op.express oa B, Op.express ob A]).interests
        = [⟨0, oa, B, IStatus.ACCEPTED, none⟩, ⟨1, ob, A, IStatus.ACCEPTED, none⟩]
      ∧ (runOps (initDB [⟨oa, A, tA⟩, ⟨ob, B, tB⟩]) [Op.express oa B, Op.express ob A]).chats
        = [⟨2, (canonPair A B).1, (canonPair A B).2, CStatus.ACTIVE⟩]) := by
  have e1 : (oa == ob) = false := beq_eq_false_iff_ne.mpr hO
  have e2 : (ob == oa) = false := beq_eq_false_iff_ne.mpr hO.symm
  have e3 : (A == B) = false := beq_eq_false_iff_ne.mpr hAB
  have e4 : (B == A) = false := beq_eq_false_iff_ne.mpr hAB.symm
  simp [runOps, applyOp, expressInterest, initDB, findOffer, insertProposed, newInterest,
    check_self_interest, matchEvaluate, create_chat_on_mutual_match, upsertChatActive,
    ownerOf, e1, e2, e3, e4, canonPair_comm]

/-- C1 witness: the mutual match property at users 1, 2 and offers 10, 11. -/
theorem c1_mutual_match_witness :
    ((runOps (initDB [⟨10, 1, "a"⟩, ⟨11, 2, "b"⟩]) [Op.express 11 1, Op.express 10 2]).interests
        = [⟨0, 11, 1, IStatus.ACCEPTED, none⟩, ⟨1, 10, 2, IStatus.ACCEPTED, none⟩]
      ∧ (runOps (initDB [⟨10, 1, "a"⟩, ⟨11, 2, "b"⟩]) [Op.express 11 1, Op.express 10 2]).chats
        = [⟨2, (canonPair 1 2).1, (canonPair 1 2).2, CStatus.ACTIVE⟩])
    ∧ ((runOps (initDB [⟨10, 1, "a"⟩, ⟨11, 2, "b"⟩]) [Op.express 10 2, Op.express 11 1]).interests
        = [⟨0, 10, 2, IStatus.ACCEPTED, none⟩, ⟨1, 11, 1, IStatus.ACCEPTED, none⟩]
      ∧ (runOps (initDB [⟨10, 1, "a"⟩, ⟨11, 2, "b"⟩]) [Op.express 10 2, Op.express 11 1]).chats
        = [⟨2, (canonPair 1 2).1, (canonPair 1 2).2, CStatus.ACTIVE⟩]) :=
  c1_mutual_match 1 2 10 11 "a" "b" (by decide) (by decide)

/-- C3: every reachable store has at most one chat per unordered user pair
(participants stored in canonical order, smaller id first); and running the
mutual-match sequence for a second distinct offer pair between the same two
users creates no second chat row, keeps the same chat id, and forces a
previously ARCHIVED chat back to ACTIVE. -/
theorem c3_chat_unique_and_reused :
    (∀ db, Reachable db → (∀ c ∈ db.chats, c.userA < c.userB)
      ∧ db.chats.Pairwise (fun a b => a.userA ≠ b.userA ∨ a.userB ≠ b.userB))
    ∧ ∀ A B oa1 ob1 oa2 ob2 : Nat, ∀ t1 t2 t3 t4 : String,
      A ≠ B → oa1 ≠ ob1 → oa1 ≠ oa2 → oa1 ≠ ob2 → ob1 ≠ oa2 → ob1 ≠ ob2 → oa2 ≠ ob2 →
      ((runOps (initDB [⟨oa1, A, t1⟩, ⟨ob1, B, t2⟩, ⟨oa2, A, t3⟩, ⟨ob2, B, t4⟩])
          [Op.express ob1 A, Op.express oa1 B]).chats
        = [⟨2, (canonPair A B).1, (canonPair A B).2, CStatus.ACTIVE⟩])
      ∧ ((runOps (initDB [⟨oa1, A, t1⟩, ⟨ob1, B, t2⟩, ⟨oa2, A, t3⟩, ⟨ob2, B, t4⟩])
          [Op.express ob1 A, Op.express oa1 B, Op.setChat 2 A CStatus.ARCHIVED]).chats
        = [⟨2, (canonPair A B).1, (canonPair A B).2, CStatus.ARCHIVED⟩])
      ∧ ((runOps (initDB [⟨oa1, A, t1⟩, ⟨ob1, B, t2⟩, ⟨oa2, A, t3⟩, ⟨ob2, B, t4⟩])
          [Op.express ob1 A, Op.express oa1 B, Op.setChat 2 A CStatus.ARCHIVED,
           Op.express ob2 A, Op.express oa2 B]).chats
        = [⟨2, (canonPair A B).1, (canonPair A B).2, CStatus.ACTIVE⟩]) := by
  constructor
  · intro db hr
    exact ⟨(reachable_wf hr).chatCanon, (reachable_wf hr).chatPairNodup⟩
  · intro A B oa1 ob1 oa2 ob2 t1 t2 t3 t4 hAB h12 h13 h14 h23 h24 h34
    have eAB : (A == B) = false := beq_eq_false_iff_ne.mpr hAB
    have eBA : (B == A) = false := beq_eq_false_iff_ne.mpr hAB.symm
    have e12 : (oa1 == ob1) = false := beq_eq_false_iff_ne.mpr h12
    have e21 : (ob1 == oa1) = false := beq_eq_false_iff_ne.mpr h12.symm
    have e13 : (oa1 == oa2) = false := beq_eq_false_iff_ne.mpr h13
    have e31 : (oa2 == oa1) = false := beq_eq_false_iff_ne.mpr h13.symm
    have e14 : (oa1 == ob2) = false := beq_eq_false_iff_ne.mpr h14
    have e41 : (ob2 == oa1) = false := beq_eq_false_iff_ne.mpr h14.symm
    have e23 : (ob1 == oa2) = false := beq_eq_false_iff_ne.mpr h23
    have e32 : (oa2 == ob1) = false := beq_eq_false_iff_ne.mpr h23.symm
    have e24 : (ob1 == ob2) = false := beq_eq_false_iff_ne.mpr h24
    have e42 : (ob2 == ob1) = false := beq_eq_false_iff_ne.mpr h24.symm
    have e34 : (oa2 == ob2) = false := beq_eq_false_iff_ne.mpr h34
    have e43 : (ob2 == oa2) = false := beq_eq_false_iff_ne.mpr h34.symm
    rcases Nat.lt_or_ge A B with hlt | hge
    · have hp : canonPair A B = (A, B) := by
        unfold canonPair
        rw [if_pos hlt]
      refine ⟨?_, ?_, ?_⟩ <;>
        simp [runOps, applyOp, expressInterest, setChatStatus, initDB, findOffer,
          insertProposed, newInterest, check_self_interest, matchEvaluate,
          create_chat_on_mutual_match, upsertChatActive, ownerOf, canonPair_comm, hp,
          eAB, eBA, e12, e21, e13, e31, e14, e41, e23, e32, e24, e42, e34, e43]
    · have hp : canonPair A B = (B, A) := by
        unfold canonPair
        rw [if_neg (Nat.not_lt.mpr hge)]
      refine ⟨?_, ?_, ?_⟩ <;>
        simp [runOps, applyOp, expressInterest, setChatStatus, initDB, findOffer,
          insertProposed, newInterest, check_self_interest, matchEvaluate,
          create_chat_on_mutual_match, upsertChatActive, ownerOf, canonPair_comm, hp,
          eAB, eBA, e12, e21, e13, e31, e14, e41, e23, e32, e24, e42, e34, e43]

/-- C3 witness: instantiation at users 1, 2 and offers 10, 11, 12, 13. -/
theorem c3_chat_unique_and_reused_witness :
    ((⟨2, 1, 2, CStatus.ACTIVE⟩ : Chat).userA < (⟨2, 1, 2, CStatus.ACTIVE⟩ : Chat).userB
      ∧ exMatched.chats.Pairwise (fun a b => a.userA ≠ b.userA ∨ a.userB ≠ b.userB))
    ∧ ((runOps (initDB [⟨10, 1, "a"⟩, ⟨11, 2, "b"⟩, ⟨12, 1, "c"⟩, ⟨13, 2, "d"⟩])
        [Op.express 11 1, Op.express 10 2]).chats
      = [⟨2, (canonPair 1 2).1, (canonPair 1 2).2, CStatus.ACTIVE⟩])
    ∧ ((runOps (initDB [⟨10, 1, "a"⟩, ⟨11, 2, "b"⟩, ⟨12, 1, "c"⟩, ⟨13, 2, "d"⟩])
        [Op.express 11 1, Op.express 10 2, Op.setChat 2 1 CStatus.ARCHIVED]).chats
      = [⟨2, (canonPair 1 2).1, (canonPair 1 2).2, CStatus.ARCHIVED⟩])
    ∧ ((runOps (initDB [⟨10, 1, "a"⟩, ⟨11, 2, "b"⟩, ⟨12, 1, "c"⟩, ⟨13, 2, "d"⟩])
        [Op.express 11 1, Op.express 10 2, Op.setChat 2 1 CStatus.ARCHIVED,
         Op.express 13 1, Op.express 12 2]).chats
      = [⟨2, (canonPair 1 2).1, (canonPair 1 2).2, CStatus.ACTIVE⟩]) :=
  ⟨⟨(c3_chat_unique_and_reused.1 exMatched
        ⟨exOffers, [Op.express 11 1, Op.express 10 2], rfl⟩).1
      ⟨2, 1, 2, CStatus.ACTIVE⟩ (by decide),
    (c3_chat_unique_and_reused.1 exMatched
        ⟨exOffers, [Op.express 11 1, Op.express 10 2], rfl⟩).2⟩,
   (c3_chat_unique_and_reused.2 1 2 10 11 12 13 "a" "b" "c" "d" (by decide) (by decide)
      (by decide) (by decide) (by decide) (by decide) (by decide)).1,
   (c3_chat_unique_and_reused.2 1 2 10 11 12 13 "a" "b" "c" "d" (by decide) (by decide)
      (by decide) (by decide) (by decide) (by decide) (by decide)).2.1,
   (c3_chat_unique_and_reused.2 1 2 10 11 12 13 "a" "b" "c" "d" (by decide) (by decide)
      (by decide) (by decide) (by decide) (by decide) (by decide)).2.2⟩

/-- C5 witness: Forbidden for a stranger, BadStatus on a PROPOSED interest,
success on an ACCEPTED interest. -/
theorem c5_realize_semantics_witness :
    realize exMatched 0 999 = Except.error CoreError.Forbidden
    ∧ realize exProposed 0 1 = Except.error CoreError.BadStatus
    ∧ (∃ db' out, realize exMatched 0 1 = Except.ok (db', out)
        ∧ realizedRow ⟨0, 11, 1, IStatus.ACCEPTED, none⟩ exMatched.now ∈ db'.interests
        ∧ (out = RealizeOutcome.completed
            ↔ mirrorRealized db' (realizedRow ⟨0, 11, 1, IStatus.ACCEPTED, none⟩ exMatched.now)
              = true)) :=
  ⟨((c5_realize_semantics exMatched 0 999).2 ⟨0, 11, 1, IStatus.ACCEPTED, none⟩
      (by decide)).1 (by decide),
   ((c5_realize_semantics exProposed 0 1).2 ⟨0, 11, 1, IStatus.PROPOSED, none⟩
      (by decide)).2.1 rfl (by decide),
   ((c5_realize_semantics exMatched 0 1).2 ⟨0, 11, 1, IStatus.ACCEPTED, none⟩
      (by decide)).2.2 rfl rfl⟩

/-- C6 witness: in the completed scenario unrealize fails with
AlreadyCompleted and cancel leaves the realized row untouched; in the
half-realized scenario unrealize succeeds and reverts the row. -/
theorem c6_terminal_absorbing_witness :
    unrealize exDone 0 1 = Except.error CoreError.AlreadyCompleted
    ∧ (⟨0, 11, 1, IStatus.REALIZED, some 0⟩ : Interest)
        ∈ (applyOp exDone (Op.cancel 0 1)).interests
    ∧ (∃ db', unrealize exHalf 0 1 = Except.ok db'
        ∧ clearedRow ⟨0, 11, 1, IStatus.REALIZED, some 0⟩ ∈ db'.interests) :=
  ⟨((c6_terminal_absorbing exDone
      ⟨exOffers, [Op.express 11 1, Op.express 10 2, Op.realizeOp 0 1, Op.realizeOp 1 2], rfl⟩).1
      ⟨0, 11, 1, IStatus.REALIZED, some 0⟩ (by decide)
      ⟨1, 10, 2, IStatus.REALIZED, some 0⟩ (by decide) (by decide) rfl rfl).1,
   ((c6_terminal_absorbing exDone
      ⟨exOffers, [Op.express 11 1, Op.express 10 2, Op.realizeOp 0 1, Op.realizeOp 1 2], rfl⟩).1
      ⟨0, 11, 1, IStatus.REALIZED, some 0⟩ (by decide)
      ⟨1, 10, 2, IStatus.REALIZED, some 0⟩ (by decide) (by decide) rfl rfl).2 (Op.cancel 0 1),
   (c6_terminal_absorbing exHalf
      ⟨exOffers, [Op.express 11 1, Op.express 10 2, Op.realizeOp 0 1], rfl⟩).2
      ⟨0, 11, 1, IStatus.REALIZED, some 0⟩ (by decide) rfl (by decide)⟩

/-- C8 witness: a second expressInterest for the pair (offer 11, user 1)
fails with DuplicateInterest; after cancelling the record the pair can be
expressed again. -/
theorem c8_duplicate_until_cancelled_witness :
    expressInterest exMatched 11 1 = Except.error CoreError.DuplicateInterest
    ∧ (∃ db'' iid2, expressInterest
        { exMatched with interests := exMatched.interests.filter (fun j => ¬(j.id == 0)) } 11 1
        = Except.ok (db'', iid2)) :=
  ⟨(c8_duplicate_until_cancelled exMatched
      ⟨exOffers, [Op.express 11 1, Op.express 10 2], rfl⟩
      ⟨0, 11, 1, IStatus.ACCEPTED, none⟩ (by decide)).1,
   (c8_duplicate_until_cancelled exMatched
      ⟨exOffers, [Op.express 11 1, Op.express 10 2], rfl⟩
      ⟨0, 11, 1, IStatus.ACCEPTED, none⟩ (by decide)).2
     { exMatched with interests := exMatched.interests.filter (fun j => ¬(j.id == 0)) }
     rfl⟩

/-- C9 witness: NotFound on a missing id, Forbidden for a stranger,
AlreadyRealized on a REALIZED interest, deletion on an ACCEPTED interest. -/
theorem c9_cancel_semantics_witness :
    cancelInterest exMatched 99 1 = Except.error CoreError.NotFound
    ∧ cancelInterest exMatched 0 999 = Except.error CoreError.Forbidden
    ∧ cancelInterest exHalf 0 1 = Except.error CoreError.AlreadyRealized
    ∧ cancelInterest exMatched 0 1 = Except.ok
        { exMatched with interests := exMatched.interests.filter (fun j => ¬(j.id == 0)) } :=
  ⟨(c9_cancel_semantics exMatched 99 1).1 (by decide),
   ((c9_cancel_semantics exMatched 0 999).2 ⟨0, 11, 1, IStatus.ACCEPTED, none⟩
      (by decide)).1 (by decide),
   ((c9_cancel_semantics exHalf 0 1).2 ⟨0, 11, 1, IStatus.REALIZED, some 0⟩
      (by decide)).2.1 rfl rfl,
   ((c9_cancel_semantics exMatched 0 1).2 ⟨0, 11, 1, IStatus.ACCEPTED, none⟩
      (by decide)).2.2 rfl (by decide)⟩

/-- C10 witness: the record of the completed exchange is aligned. -/
theorem c10_record_alignment_witness :
    (⟨3, 1, 2, some 10, some 11, "t10", "t11", 2, 0⟩ : ExchangeRecord).userA
        < (⟨3, 1, 2, some 10, some 11, "t10", "t11", 2, 0⟩ : ExchangeRecord).userB
    ∧ (∃ a o, (⟨3, 1, 2, some 10, some 11, "t10", "t11", 2, 0⟩ : ExchangeRecord).offerAId = some a
        ∧ findOffer exDone.offers a = some o ∧ o.ownerId = 1 ∧ o.title = "t10")
    ∧ (∃ b o2, (⟨3, 1, 2, some 10, some 11, "t10", "t11", 2, 0⟩ : ExchangeRecord).offerBId = some b
        ∧ findOffer exDone.offers b = some o2 ∧ o2.ownerId = 2 ∧ o2.title = "t11") :=
  c10_record_alignment exDone
    ⟨exOffers, [Op.express 11 1, Op.express 10 2, Op.realizeOp 0 1, Op.realizeOp 1 2], rfl⟩
    ⟨3, 1, 2, some 10, some 11, "t10", "t11", 2, 0⟩ (by decide)

end Kakapo
